import Mathlib

/-!
Shallow embedding of the haresheet request builder and batch execution
pipeline (`builder.go`, `batch_update_executor.go`, the sheet builder file).
Go methods that mutate their receiver through a pointer are translated into
state-passing functions returning the updated value.  The remote batch call
performed by `Flush` is modelled by an explicit `remote` parameter giving the
outcome of the one call a `Flush` can make (`none` = success, `some msg` = a
transport error); `Flush` and `Queue` additionally return the list of remote
calls they performed, each carrying the staged buffer that was submitted.
-/

namespace Haresheet

/-- Payload of a Go `float64` cell value; `ofInt n` is the value produced by
Go's `float64(n)` conversion from an `int`, `raw bits` a `float64` given
directly (carried verbatim, never inspected by the code). -/
inductive GoNumber where
  | ofInt : Int → GoNumber
  | raw : Nat → GoNumber
deriving DecidableEq

/-- `sheets.ExtendedValue`: exactly one of the value fields is set. -/
inductive ExtendedValue where
  | formulaValue : String → ExtendedValue
  | stringValue : String → ExtendedValue
  | numberValue : GoNumber → ExtendedValue
  | boolValue : Bool → ExtendedValue
deriving DecidableEq

/-- `sheets.CellData` (only the field the code writes). -/
structure CellData where
  userEnteredValue : Option ExtendedValue := none
deriving DecidableEq

/-- `sheets.RowData`. -/
structure RowData where
  values : List CellData := []
deriving DecidableEq

/-- `sheets.GridCoordinate`. -/
structure GridCoordinate where
  sheetId : Int := 0
  rowIndex : Int := 0
  columnIndex : Int := 0
deriving DecidableEq

/-- `sheets.GridRange` (the fields the code sets). -/
structure GridRange where
  sheetId : Int := 0
  startRowIndex : Int := 0
  endRowIndex : Int := 0
  startColumnIndex : Int := 0
  endColumnIndex : Int := 0
deriving DecidableEq

/-- `sheets.MergeCellsRequest` (the fields the code sets; the merge type is
the string value of the `MergeType` constant). -/
structure MergeCellsRequest where
  range : GridRange
  mergeType : String
deriving DecidableEq

/-- `sheets.SpreadsheetProperties` (the fields the builder touches). -/
structure SpreadsheetProperties where
  title : String := ""
  locale : String := ""
  timeZone : String := ""
deriving DecidableEq

/-- `sheets.SheetProperties` (the fields the builder touches). -/
structure SheetProperties where
  sheetId : Int := 0
  title : String := ""
  index : Int := 0
  forceSendFields : List String := []
deriving DecidableEq

/-- `sheets.UpdateSpreadsheetPropertiesRequest`. -/
structure UpdateSpreadsheetPropertiesRequest where
  properties : SpreadsheetProperties
  fields : String
deriving DecidableEq

/-- `sheets.AddSheetRequest`. -/
structure AddSheetRequest where
  properties : SheetProperties
deriving DecidableEq

/-- `sheets.DuplicateSheetRequest`. -/
structure DuplicateSheetRequest where
  sourceSheetId : Int := 0
  newSheetId : Int := 0
  newSheetName : String := ""
  insertSheetIndex : Int := 0
deriving DecidableEq

/-- `sheets.DeleteSheetRequest`. -/
structure DeleteSheetRequest where
  sheetId : Int := 0
deriving DecidableEq

/-- `sheets.AppendDimensionRequest`. -/
structure AppendDimensionRequest where
  sheetId : Int := 0
  dimension : String := ""
  length : Int := 0
deriving DecidableEq

/-- `sheets.DimensionRange`. -/
structure DimensionRange where
  sheetId : Int := 0
  dimension : String := ""
  startIndex : Int := 0
  endIndex : Int := 0
deriving DecidableEq

/-- `sheets.InsertDimensionRequest` (only the field the code sets). -/
structure InsertDimensionRequest where
  range : DimensionRange
deriving DecidableEq

/-- `sheets.UpdateCellsRequest` (the fields the code sets). -/
structure UpdateCellsRequest where
  start : GridCoordinate
  rows : List RowData
  fields : String
deriving DecidableEq

/-- `sheets.Request`: a tagged union, exactly one member set per request in
this codebase.  `other` stands for any request kind the embedded methods do
not construct (the caller may still stage one through Append/Prepend). -/
inductive Request where
  | updateSpreadsheetProperties : UpdateSpreadsheetPropertiesRequest → Request
  | addSheet : AddSheetRequest → Request
  | duplicateSheet : DuplicateSheetRequest → Request
  | deleteSheet : DeleteSheetRequest → Request
  | appendDimension : AppendDimensionRequest → Request
  | insertDimension : InsertDimensionRequest → Request
  | updateCells : UpdateCellsRequest → Request
  | mergeCells : MergeCellsRequest → Request
  | other : Nat → Request
deriving DecidableEq

/-- `RequestUnitInfo`. -/
structure RequestUnitInfo where
  label : String
  startIndex : Int
  endIndex : Int
  count : Int
deriving DecidableEq

/-- `BatchUpdateError`: wraps the transport error and the retained units. -/
structure BatchUpdateError where
  err : String
  units : List RequestUnitInfo
deriving DecidableEq

/-- `BatchUpdateExecutor` state.  The `service` handle and the `Trace` hooks
are omitted: the remote call is modelled by the `remote` outcome parameter of
`Flush`, and the trace callbacks do not change executor state. -/
structure BatchUpdateExecutor where
  spreadID : String
  requests : List Request
  units : List RequestUnitInfo
  limit : Int
  err : Option BatchUpdateError := none
deriving DecidableEq

/-- `NewBatchUpdateExecutor` (the `service` argument is omitted). -/
def NewBatchUpdateExecutor (spreadsheetID : String) (limit : Int) : BatchUpdateExecutor :=
  { spreadID := spreadsheetID
    requests := []
    units := []
    limit := if limit ≤ 0 then 100 else limit }

/-- `BatchUpdateExecutor.Flush`.  `remote` is the outcome of the one remote
batch call a flush can perform; the third component lists the remote calls
made, each carrying the full staged buffer. -/
def BatchUpdateExecutor.Flush (e : BatchUpdateExecutor) (remote : Option String) :
    BatchUpdateExecutor × Option BatchUpdateError × List (List Request) :=
  if e.requests = [] then
    (e, none, [])
  else
    match remote with
    | some terr => (e, some { err := terr, units := e.units }, [e.requests])
    | none => ({ e with requests := [], units := [] }, none, [e.requests])

/-- The tail of `Queue` after the optional pre-admission flush: computes the
unit indices from the current state (after a successful implicit flush the
buffer is empty, matching Go's `currentCount = 0`), synthesizes the label if
empty, and appends the unit and the operations. -/
def BatchUpdateExecutor.queueAppend (e : BatchUpdateExecutor) (reqs : List Request)
    (label : String) : BatchUpdateExecutor :=
  let currentCount : Int := e.requests.length
  let newCount : Int := reqs.length
  let startIndex : Int := currentCount
  let endIndex : Int := currentCount + newCount - 1
  let n : Nat := e.units.length + 1
  let lab : String :=
    if label = "" then s!"Unit-{n} [{startIndex} - {endIndex}]" else label
  { e with
    units := e.units ++ [{ label := lab, startIndex := startIndex,
                           endIndex := endIndex, count := newCount }]
    requests := e.requests ++ reqs }

/-- `BatchUpdateExecutor.Queue`.  Returns the updated executor and the list
of remote calls performed (at most the one implicit pre-admission flush). -/
def BatchUpdateExecutor.Queue (e : BatchUpdateExecutor) (reqs : List Request)
    (label : String) (remote : Option String) :
    BatchUpdateExecutor × List (List Request) :=
  if e.err.isSome then
    (e, [])
  else
    let currentCount : Int := e.requests.length
    let newCount : Int := reqs.length
    if currentCount > 0 ∧ currentCount + newCount > e.limit then
      match e.Flush remote with
      | (e1, some ferr, calls) => ({ e1 with err := some ferr }, calls)
      | (e1, none, calls) => (e1.queueAppend reqs label, calls)
    else
      (e.queueAppend reqs label, [])

/-- `Builder` state.  The bound executor is held by value (`Option` models the
nil-able pointer); an error is a `String` (the formatted message). -/
structure Builder where
  executor : Option BatchUpdateExecutor := none
  requests : List Request := []
  errs : List String := []
  props : Option SpreadsheetProperties := none
  propFields : List String := []
deriving DecidableEq

/-- `NewBuilder`. -/
def NewBuilder : Builder :=
  { executor := none, requests := [], errs := [], props := none, propFields := [] }

/-- `Builder.Requests` (finalization): errors win; otherwise a consolidated
property-update request is prepended (into a fresh list) when properties were
touched.  `Except.error b.errs` models `(nil, errors.Join(b.errs...))`. -/
def Builder.Requests (b : Builder) : Except (List String) (List Request) :=
  if b.errs.length > 0 then
    Except.error b.errs
  else
    let finalRequests := b.requests
    match b.props with
    | some props =>
        if b.propFields.length > 0 then
          Except.ok (Request.updateSpreadsheetProperties
            { properties := props, fields := String.intercalate "," b.propFields }
            :: finalRequests)
        else
          Except.ok finalRequests
    | none => Except.ok finalRequests

/-- The `Requests` method as a state transformer: result plus the receiver
state after the call (the method only reads the builder; the prepend happens
on a freshly allocated list, so the stored fields are untouched). -/
def Builder.RequestsCall (b : Builder) :
    Except (List String) (List Request) × Builder :=
  (b.Requests, b)

/-- `Builder.AppendRequest` (`none` models a nil pointer, a no-op). -/
def Builder.AppendRequest (b : Builder) (request : Option Request) : Builder :=
  match request with
  | none => b
  | some r => { b with requests := b.requests ++ [r] }

/-- `Builder.PrependRequest` (`none` models a nil pointer, a no-op). -/
def Builder.PrependRequest (b : Builder) (request : Option Request) : Builder :=
  match request with
  | none => b
  | some r => { b with requests := r :: b.requests }

/-- `Builder.appendError`; every call site passes a non-nil error, so the
argument is a plain message. -/
def Builder.appendError (b : Builder) (err : String) : Builder :=
  { b with errs := b.errs ++ [err] }

/-- `Builder.ensureProps`. -/
def Builder.ensureProps (b : Builder) : Builder :=
  match b.props with
  | none => { b with props := some {} }
  | some _ => b

/-- `Builder.Title`. -/
def Builder.Title (b : Builder) (title : String) : Builder :=
  let b1 := b.ensureProps
  { b1 with
    props := some { b1.props.getD {} with title := title }
    propFields := b1.propFields ++ ["title"] }

/-- `Builder.Locale`. -/
def Builder.Locale (b : Builder) (locale : String) : Builder :=
  let b1 := b.ensureProps
  { b1 with
    props := some { b1.props.getD {} with locale := locale }
    propFields := b1.propFields ++ ["locale"] }

/-- `Builder.TimeZone`. -/
def Builder.TimeZone (b : Builder) (tz : String) : Builder :=
  let b1 := b.ensureProps
  { b1 with
    props := some { b1.props.getD {} with timeZone := tz }
    propFields := b1.propFields ++ ["timeZone"] }

/-- `SheetBuilder`: a view scoped to one sheet; `b` is the state of the
shared parent builder (a pointer in Go, state-passed here). -/
structure SheetBuilder where
  b : Builder
  sheetID : Int
deriving DecidableEq

/-- `Builder.Sheet`: builds the view, recording an error on the parent for a
negative sheet ID. -/
def Builder.Sheet (b : Builder) (sheetID : Int) : SheetBuilder :=
  if sheetID < 0 then
    { b := b.appendError s!"Sheet: invalid sheet ID: {sheetID}", sheetID := sheetID }
  else
    { b := b, sheetID := sheetID }

/-- `Builder.WithLimit`: assigns the given value to the bound executor's
limit verbatim (no defaulting); a no-op without a bound executor. -/
def Builder.WithLimit (b : Builder) (limit : Int) : Builder :=
  match b.executor with
  | none => b
  | some e => { b with executor := some { e with limit := limit } }

/-- `Client` (the `service` handle is omitted). -/
structure Client where
  spreadID : String
deriving DecidableEq

/-- `Client.Builder`: a fresh builder bound to a fresh executor with limit
100. -/
def Client.Builder (c : Client) : Builder :=
  { NewBuilder with executor := some (NewBatchUpdateExecutor c.spreadID 100) }

/-- Dynamic Go value passed as `any` to the cell setters.  `other k`
represents a value of any dynamic type outside the four handled cases (the
tag only keeps distinct values distinct); a nil interface value is the `none`
of the surrounding `Option`. -/
inductive GoValue where
  | str : String → GoValue
  | int : Int → GoValue
  | float64 : Nat → GoValue
  | bool : Bool → GoValue
  | other : Nat → GoValue
deriving DecidableEq

/-- `SheetBuilder.toCellData` (the receiver is unused in the source, so this
is a plain function).  A Go `switch v.(type)` with no nil case leaves the
cell empty for `none` and for `other`; a string is a formula exactly when its
first byte is `=` (for valid text that byte is `=` exactly when the first
character is). -/
def toCellData (v : Option GoValue) : CellData :=
  match v with
  | some (GoValue.str s) =>
      if s.length > 0 ∧ s.front = '=' then
        { userEnteredValue := some (ExtendedValue.formulaValue s) }
      else
        { userEnteredValue := some (ExtendedValue.stringValue s) }
  | some (GoValue.int n) =>
      { userEnteredValue := some (ExtendedValue.numberValue (GoNumber.ofInt n)) }
  | some (GoValue.float64 bits) =>
      { userEnteredValue := some (ExtendedValue.numberValue (GoNumber.raw bits)) }
  | some (GoValue.bool bv) =>
      { userEnteredValue := some (ExtendedValue.boolValue bv) }
  | some (GoValue.other _) => {}
  | none => {}

/-- `SheetBuilder.SetCellValue`. -/
def SheetBuilder.SetCellValue (sb : SheetBuilder) (row : Int) (col : Int)
    (value : Option GoValue) : SheetBuilder :=
  if row < 0 then
    { sb with b := sb.b.appendError s!"SetCellValue: invalid row: {row}" }
  else if col < 0 then
    { sb with b := sb.b.appendError s!"SetCellValue: invalid col: {col}" }
  else if value = none then
    { sb with b := sb.b.appendError "SetCellValue: value should not be nil" }
  else
    let cell := toCellData value
    let req : Request := Request.updateCells
      { start := { sheetId := sb.sheetID, rowIndex := row, columnIndex := col }
        rows := [{ values := [cell] }]
        fields := "userEnteredValue" }
    { sb with b := sb.b.AppendRequest (some req) }

/-- One call to a property setter of the builder. -/
inductive PropCall where
  | title : String → PropCall
  | locale : String → PropCall
  | timeZone : String → PropCall
deriving DecidableEq

/-- The field path recorded by one setter call. -/
def PropCall.fieldName : PropCall → String
  | .title _ => "title"
  | .locale _ => "locale"
  | .timeZone _ => "timeZone"

/-- Dispatch one setter call. -/
def Builder.applyPropCall (b : Builder) : PropCall → Builder
  | .title s => b.Title s
  | .locale s => b.Locale s
  | .timeZone s => b.TimeZone s

/-- Apply a sequence of setter calls in order. -/
def Builder.applyPropCalls (b : Builder) : List PropCall → Builder
  | [] => b
  | c :: cs => (b.applyPropCall c).applyPropCalls cs

/-- The title after a call sequence, starting from `base`. -/
def lastTitle (base : String) : List PropCall → String
  | [] => base
  | .title s :: cs => lastTitle s cs
  | _ :: cs => lastTitle base cs

/-- The locale after a call sequence, starting from `base`. -/
def lastLocale (base : String) : List PropCall → String
  | [] => base
  | .locale s :: cs => lastLocale s cs
  | _ :: cs => lastLocale base cs

/-- The time zone after a call sequence, starting from `base`. -/
def lastTimeZone (base : String) : List PropCall → String
  | [] => base
  | .timeZone s :: cs => lastTimeZone s cs
  | _ :: cs => lastTimeZone base cs

/-- Whether a request is the property-update kind. -/
def Request.isPropertyUpdate : Request → Bool
  | .updateSpreadsheetProperties _ => true
  | _ => false

/-- Apply `PrependRequest` for each request of the list, in order. -/
def Builder.prependAll (b : Builder) : List Request → Builder
  | [] => b
  | r :: rs => (b.PrependRequest (some r)).prependAll rs

/-- Sample request used by concrete witnesses. -/
def r1 : Request := Request.deleteSheet { sheetId := 1 }

/-- Second sample request used by concrete witnesses. -/
def r2 : Request := Request.deleteSheet { sheetId := 2 }

/-- Sample unit used by concrete witnesses. -/
def u0 : RequestUnitInfo := { label := "u", startIndex := 0, endIndex := 0, count := 1 }

/-- Sample executor with one staged request and limit 1. -/
def e0 : BatchUpdateExecutor :=
  { spreadID := "s", requests := [r1], units := [u0], limit := 1, err := none }

/-! Helper lemmas about the executor. -/

theorem queue_sticky (e : BatchUpdateExecutor) (reqs : List Request) (label : String)
    (remote : Option String) (berr : BatchUpdateError) (h : e.err = some berr) :
    e.Queue reqs label remote = (e, []) := by
  simp [BatchUpdateExecutor.Queue, h]

theorem queue_no_overflow (e : BatchUpdateExecutor) (reqs : List Request) (label : String)
    (remote : Option String) (hne : e.err = none)
    (h : ¬ ((0 : Int) < e.requests.length ∧
            (e.requests.length : Int) + (reqs.length : Int) > e.limit)) :
    e.Queue reqs label remote = (e.queueAppend reqs label, []) := by
  simp only [BatchUpdateExecutor.Queue, hne, Option.isSome_none, Bool.false_eq_true,
    if_false]
  rw [if_neg h]

theorem flush_empty (e : BatchUpdateExecutor) (remote : Option String)
    (h : e.requests = []) : e.Flush remote = (e, none, []) := by
  simp [BatchUpdateExecutor.Flush, h]

theorem flush_success (e : BatchUpdateExecutor) (h : e.requests ≠ []) :
    e.Flush none = ({ e with requests := [], units := [] }, none, [e.requests]) := by
  simp [BatchUpdateExecutor.Flush, h]

theorem flush_failure (e : BatchUpdateExecutor) (terr : String) (h : e.requests ≠ []) :
    e.Flush (some terr) = (e, some { err := terr, units := e.units }, [e.requests]) := by
  simp [BatchUpdateExecutor.Flush, h]

theorem queue_overflow_success (e : BatchUpdateExecutor) (reqs : List Request)
    (label : String) (hne : e.err = none) (hreq : e.requests ≠ [])
    (hlim : (e.requests.length : Int) + (reqs.length : Int) > e.limit) :
    e.Queue reqs label none =
      (BatchUpdateExecutor.queueAppend { e with requests := [], units := [] } reqs label,
        [e.requests]) := by
  have hcc : (0 : Int) < e.requests.length := by
    exact_mod_cast List.length_pos.mpr hreq
  simp only [BatchUpdateExecutor.Queue, hne, Option.isSome_none, Bool.false_eq_true,
    if_false]
  rw [if_pos ⟨hcc, hlim⟩, flush_success e hreq, hne]

theorem queue_overflow_failure (e : BatchUpdateExecutor) (reqs : List Request)
    (label : String) (terr : String) (hne : e.err = none) (hreq : e.requests ≠ [])
    (hlim : (e.requests.length : Int) + (reqs.length : Int) > e.limit) :
    e.Queue reqs label (some terr) =
      ({ e with err := some { err := terr, units := e.units } }, [e.requests]) := by
  have hcc : (0 : Int) < e.requests.length := by
    exact_mod_cast List.length_pos.mpr hreq
  simp only [BatchUpdateExecutor.Queue, hne, Option.isSome_none, Bool.false_eq_true,
    if_false]
  rw [if_pos ⟨hcc, hlim⟩, flush_failure e terr hreq]

theorem queueAppend_requests (e : BatchUpdateExecutor) (reqs : List Request)
    (label : String) : (e.queueAppend reqs label).requests = e.requests ++ reqs := by
  simp [BatchUpdateExecutor.queueAppend]

theorem queueAppend_units (e : BatchUpdateExecutor) (reqs : List Request)
    (label : String) :
    ∃ u, (e.queueAppend reqs label).units = e.units ++ [u] ∧
      u.count = (reqs.length : Int) ∧ u.startIndex = (e.requests.length : Int) ∧
      u.endIndex = (e.requests.length : Int) + (reqs.length : Int) - 1 := by
  refine ⟨_, rfl, rfl, rfl, rfl⟩

theorem queueAppend_err (e : BatchUpdateExecutor) (reqs : List Request)
    (label : String) : (e.queueAppend reqs label).err = e.err := rfl

/-- Claim C1: with the sticky error unset, when the staging buffer is non-empty
and the buffered count plus the new count exceeds the limit, `Queue` performs
exactly one implicit flush, covering exactly the existing buffer, before the
new operations are appended — after a successful implicit flush the buffer
holds only the new operations, admitted as one unit; when the buffer is empty,
for every remote outcome no flush occurs and the new operations are admitted
whole as one unit, even when their count alone exceeds the limit. -/
theorem C1_queue_admission (e : BatchUpdateExecutor) (reqs : List Request)
    (label : String) (hne : e.err = none) :
    (e.requests ≠ [] → (e.requests.length : Int) + (reqs.length : Int) > e.limit →
      (e.Queue reqs label none).2 = [e.requests] ∧
      (e.Queue reqs label none).1.requests = reqs ∧
      ∃ u, (e.Queue reqs label none).1.units = [u] ∧ u.count = (reqs.length : Int))
    ∧ (e.requests = [] → ∀ remote,
      (e.Queue reqs label remote).2 = [] ∧
      (e.Queue reqs label remote).1.requests = reqs ∧
      ∃ u, (e.Queue reqs label remote).1.units = e.units ++ [u] ∧
        u.count = (reqs.length : Int)) := by
  constructor
  · intro hreq hlim
    rw [queue_overflow_success e reqs label hne hreq hlim]
    refine ⟨rfl, by simp [queueAppend_requests], ?_⟩
    obtain ⟨u, hu, hc, _, _⟩ :=
      queueAppend_units { e with requests := [], units := [] } reqs label
    exact ⟨u, by simpa using hu, hc⟩
  · intro hreq remote
    have h0 : ¬ ((0 : Int) < e.requests.length ∧
        (e.requests.length : Int) + (reqs.length : Int) > e.limit) := by
      rw [hreq]; simp
    rw [queue_no_overflow e reqs label remote hne h0]
    refine ⟨rfl, by simp [queueAppend_requests, hreq], ?_⟩
    obtain ⟨u, hu, hc, _, _⟩ := queueAppend_units e reqs label
    exact ⟨u, hu, hc⟩

/-- Witness for C1 at a concrete executor (limit 1, one staged request). -/
theorem C1_queue_admission_witness :
    (e0.Queue [r2] "v" none).2 = [[r1]] ∧ (e0.Queue [r2] "v" none).1.requests = [r2] := by
  have h := (C1_queue_admission e0 [r2] "v" rfl).1 (by decide) (by decide)
  exact ⟨h.1, h.2.1⟩

/-- Claim C2: `Flush` on an empty staging buffer succeeds without any remote
call for every remote outcome; a successful `Flush` clears the buffer and the
unit list so an immediately following `Flush` is a no-op; a failed `Flush`
leaves the state exactly as it was and returns a structured error wrapping the
transport error and carrying exactly the retained units. -/
theorem C2_flush_semantics (e : BatchUpdateExecutor) :
    (e.requests = [] → ∀ remote, e.Flush remote = (e, none, []))
    ∧ (e.requests ≠ [] →
        (e.Flush none = ({ e with requests := [], units := [] }, none, [e.requests]) ∧
          ∀ remote2, ((e.Flush none).1).Flush remote2 = ((e.Flush none).1, none, [])) ∧
        ∀ terr, e.Flush (some terr) =
          (e, some { err := terr, units := e.units }, [e.requests])) := by
  refine ⟨fun h remote => flush_empty e remote h, fun h => ⟨⟨flush_success e h, ?_⟩,
    fun terr => flush_failure e terr h⟩⟩
  intro remote2
  rw [flush_success e h]
  exact flush_empty _ remote2 rfl

/-- Witness for C2 at a concrete executor with a non-empty buffer. -/
theorem C2_flush_semantics_witness :
    e0.Flush (some "boom") = (e0, some { err := "boom", units := [u0] }, [[r1]]) := by
  exact (((C2_flush_semantics e0).2 (by decide)).2) "boom"

/-- Claim C3: an explicit `Flush` never changes the sticky error; starting
from a clean executor, a `Queue` call sets the sticky error exactly when the
implicit pre-admission flush runs (buffer non-empty and over the limit) and
its remote call fails; and once the sticky error is set, every `Queue` call
returns with the executor — buffer, unit list and error field — unchanged and
admits nothing. -/
theorem C3_sticky_error (e : BatchUpdateExecutor) (reqs : List Request)
    (label : String) (remote : Option String) :
    ((e.Flush remote).1.err = e.err)
    ∧ (e.err = none →
        ((e.Queue reqs label remote).1.err ≠ none ↔
          e.requests ≠ [] ∧ (e.requests.length : Int) + (reqs.length : Int) > e.limit ∧
            remote ≠ none))
    ∧ (∀ berr, e.err = some berr → e.Queue reqs label remote = (e, [])) := by
  refine ⟨?_, ?_, fun berr h => queue_sticky e reqs label remote berr h⟩
  · by_cases h : e.requests = []
    · rw [flush_empty e remote h]
    · cases remote with
      | none => rw [flush_success e h]
      | some terr => rw [flush_failure e terr h]
  · intro hne
    by_cases hreq : e.requests = []
    · have h0 : ¬ ((0 : Int) < e.requests.length ∧
          (e.requests.length : Int) + (reqs.length : Int) > e.limit) := by
        rw [hreq]; simp
      rw [queue_no_overflow e reqs label remote hne h0]
      simp [queueAppend_err, hne, hreq]
    · by_cases hlim : (e.requests.length : Int) + (reqs.length : Int) > e.limit
      · cases remote with
        | none =>
            rw [queue_overflow_success e reqs label hne hreq hlim]
            simp [queueAppend_err, hne]
        | some terr =>
            rw [queue_overflow_failure e reqs label terr hne hreq hlim]
            simp [hreq, hlim]
      · have h0 : ¬ ((0 : Int) < e.requests.length ∧
            (e.requests.length : Int) + (reqs.length : Int) > e.limit) := by
          intro hc; exact hlim hc.2
        rw [queue_no_overflow e reqs label remote hne h0]
        simp [queueAppend_err, hne, hlim]

/-- Witness for C3: a failing implicit flush at a concrete executor sets the
sticky error. -/
theorem C3_sticky_error_witness :
    (e0.Queue [r2] "v" (some "boom")).1.err ≠ none := by
  exact ((C3_sticky_error e0 [r2] "v" (some "boom")).2.1 rfl).mpr
    ⟨by decide, by decide, by decide⟩

/-- Claim C5: finalizing a builder whose error list is non-empty returns no
operations and the aggregate of every recorded failure, whatever else the
builder holds. -/
theorem C5_errors_win (b : Builder) (h : b.errs ≠ []) :
    b.Requests = Except.error b.errs := by
  have hl : b.errs.length > 0 := List.length_pos.mpr h
  simp [Builder.Requests, hl]

/-- Witness for C5 at a builder holding one recorded validation failure. -/
theorem C5_errors_win_witness :
    ((NewBuilder.Sheet (-1)).b).Requests =
      Except.error ["Sheet: invalid sheet ID: -1"] := by
  exact C5_errors_win (NewBuilder.Sheet (-1)).b (by decide)

/-- Claim C7 counterexample: configuring the limit through the builder's
`WithLimit` with the non-positive value 0 leaves the bound executor with
limit 0, not the default 100. -/
theorem C7_counterexample :
    ((Client.Builder { spreadID := "s" }).WithLimit 0).executor.map
        (fun e => e.limit) = some 0 ∧
      some (0 : Int) ≠ some (100 : Int) := by
  exact ⟨rfl, by decide⟩

/-- Claim C7 (amended): the executor constructor defaults an unset or
non-positive limit to 100 and keeps a positive one; the builder's limit
setter assigns the supplied value verbatim to the bound executor with no
defaulting, and is a no-op when no executor is bound. -/
theorem C7_amended_limit (spreadsheetID : String) (limit l2 : Int) (b : Builder) :
    (limit ≤ 0 → (NewBatchUpdateExecutor spreadsheetID limit).limit = 100)
    ∧ (0 < limit → (NewBatchUpdateExecutor spreadsheetID limit).limit = limit)
    ∧ (∀ e, b.executor = some e → (b.WithLimit l2).executor = some { e with limit := l2 })
    ∧ (b.executor = none → b.WithLimit l2 = b) := by
  refine ⟨?_, ?_, ?_, ?_⟩
  · intro h; simp [NewBatchUpdateExecutor, h]
  · intro h; simp [NewBatchUpdateExecutor, not_le.mpr h]
  · intro e he; simp [Builder.WithLimit, he]
  · intro he; simp [Builder.WithLimit, he]

/-- Witness for the amended C7 at concrete values. -/
theorem C7_amended_limit_witness :
    (NewBatchUpdateExecutor "s" (-3)).limit = 100 := by
  exact (C7_amended_limit "s" (-3) 7 NewBuilder).1 (by decide)

/-- Claim C9: the finalization call leaves the builder's stored state
unchanged, and finalizing twice without intervening mutation yields the same
result both times. -/
theorem C9_requests_idempotent (b : Builder) :
    b.RequestsCall.2 = b ∧
    b.RequestsCall.2.RequestsCall.1 = b.RequestsCall.1 ∧
    b.RequestsCall.2.requests = b.requests ∧
    b.RequestsCall.2.props = b.props ∧
    b.RequestsCall.2.propFields = b.propFields :=
  ⟨rfl, rfl, rfl, rfl, rfl⟩

/-- Claim C10: the cell-value conversion encodes a string with a leading `=`
as a formula, any other string as text, int and float64 as numbers, bool as a
boolean; a value of any other dynamic type yields a cell with no value set,
and `SetCellValue` then appends that empty-valued cell write with no
validation error recorded. -/
theorem C10_cell_conversion (s : String) (n : Int) (bits : Nat) (bv : Bool)
    (k : Nat) (sb : SheetBuilder) (row col : Int) :
    (s.length > 0 → s.front = '=' →
      toCellData (some (GoValue.str s)) =
        { userEnteredValue := some (ExtendedValue.formulaValue s) })
    ∧ (¬ (s.length > 0 ∧ s.front = '=') →
      toCellData (some (GoValue.str s)) =
        { userEnteredValue := some (ExtendedValue.stringValue s) })
    ∧ toCellData (some (GoValue.int n)) =
        { userEnteredValue := some (ExtendedValue.numberValue (GoNumber.ofInt n)) }
    ∧ toCellData (some (GoValue.float64 bits)) =
        { userEnteredValue := some (ExtendedValue.numberValue (GoNumber.raw bits)) }
    ∧ toCellData (some (GoValue.bool bv)) =
        { userEnteredValue := some (ExtendedValue.boolValue bv) }
    ∧ toCellData (some (GoValue.other k)) = { userEnteredValue := none }
    ∧ (0 ≤ row → 0 ≤ col →
        sb.SetCellValue row col (some (GoValue.other k)) =
          { sb with b := { sb.b with requests := sb.b.requests ++
              [Request.updateCells
                { start := { sheetId := sb.sheetID, rowIndex := row, columnIndex := col }
                  rows := [{ values := [{ userEnteredValue := none }] }]
                  fields := "userEnteredValue" }] } }) := by
  refine ⟨?_, ?_, rfl, rfl, rfl, rfl, ?_⟩
  · intro h1 h2; simp [toCellData, h1, h2]
  · intro h; simp only [toCellData, if_neg h]
  · intro hrow hcol
    simp [SheetBuilder.SetCellValue, not_lt.mpr hrow, not_lt.mpr hcol,
      Builder.AppendRequest, toCellData]

/-- Witness for C10: a formula string and an unhandled dynamic type at
concrete inputs. -/
theorem C10_cell_conversion_witness :
    toCellData (some (GoValue.str "=A1")) =
        { userEnteredValue := some (ExtendedValue.formulaValue "=A1") } ∧
      (SheetBuilder.SetCellValue { b := NewBuilder, sheetID := 3 } 0 0
          (some (GoValue.other 0))).b.errs = [] := by
  have h := C10_cell_conversion "=A1" 0 0 false 0
    { b := NewBuilder, sheetID := 3 } 0 0
  refine ⟨h.1 (by decide) (by decide), ?_⟩
  rw [h.2.2.2.2.2.2 (by decide) (by decide)]
  rfl

theorem prependAll_requests (rs : List Request) (b : Builder) :
    (b.prependAll rs).requests = rs.reverse ++ b.requests := by
  induction rs generalizing b with
  | nil => simp [Builder.prependAll]
  | cons r rs ih =>
      simp [Builder.prependAll, Builder.PrependRequest, ih]

theorem prependAll_same (rs : List Request) (b : Builder) :
    (b.prependAll rs).errs = b.errs ∧ (b.prependAll rs).props = b.props ∧
      (b.prependAll rs).propFields = b.propFields := by
  induction rs generalizing b with
  | nil => exact ⟨rfl, rfl, rfl⟩
  | cons r rs ih => simpa [Builder.prependAll, Builder.PrependRequest] using ih _

/-- Claim C8: each `PrependRequest` places its request before everything
currently staged, including earlier prepends, so the staged list after a
sequence of prepends is the reverse of the call order followed by the prior
contents; with no validation errors and no touched properties, finalization
returns that list unchanged, whose head is the most recently prepended
request. -/
theorem C8_prepend_order (b : Builder) (rs : List Request) :
    ((b.prependAll rs).requests = rs.reverse ++ b.requests)
    ∧ (∀ r, ((b.prependAll rs).PrependRequest (some r)).requests =
        r :: (rs.reverse ++ b.requests))
    ∧ (rs ≠ [] → b.errs = [] → b.props = none →
        (b.prependAll rs).Requests = Except.ok (rs.reverse ++ b.requests) ∧
        (rs.reverse ++ b.requests).head? = rs.getLast?) := by
  obtain ⟨he, hp, _⟩ := prependAll_same rs b
  refine ⟨prependAll_requests rs b, ?_, ?_⟩
  · intro r
    simp [Builder.PrependRequest, prependAll_requests rs b]
  · intro hrs herr hprops
    constructor
    · rw [Builder.Requests]
      rw [he, herr, hp, hprops]
      simpa using prependAll_requests rs b
    · rw [List.head?_append_of_ne_nil rs.reverse (by simpa using hrs)]
      exact List.head?_reverse rs

/-- Witness for C8 at two concrete prepends. -/
theorem C8_prepend_order_witness :
    (NewBuilder.prependAll [r1, r2]).requests = [r2, r1] ∧
      (NewBuilder.prependAll [r1, r2]).Requests = Except.ok [r2, r1] := by
  have h := C8_prepend_order NewBuilder [r1, r2]
  have h3 := h.2.2 (by decide) rfl rfl
  exact ⟨h.1, h3.1⟩

/-- The field a single setter call writes. -/
def setField (p : SpreadsheetProperties) : PropCall → SpreadsheetProperties
  | .title s => { p with title := s }
  | .locale s => { p with locale := s }
  | .timeZone s => { p with timeZone := s }

theorem ensureProps_fields (b : Builder) :
    (b.ensureProps).requests = b.requests ∧ (b.ensureProps).errs = b.errs ∧
      (b.ensureProps).propFields = b.propFields ∧
      (b.ensureProps).props = some (b.props.getD {}) := by
  cases h : b.props <;> simp [Builder.ensureProps, h]

theorem applyPropCall_props (b : Builder) (c : PropCall) :
    (b.applyPropCall c).props = some (setField (b.props.getD {}) c) := by
  obtain ⟨-, -, -, h⟩ := ensureProps_fields b
  cases c <;>
    simp [Builder.applyPropCall, Builder.Title, Builder.Locale, Builder.TimeZone,
      h, setField]

theorem applyPropCall_propFields (b : Builder) (c : PropCall) :
    (b.applyPropCall c).propFields = b.propFields ++ [c.fieldName] := by
  obtain ⟨-, -, h, -⟩ := ensureProps_fields b
  cases c <;>
    simp [Builder.applyPropCall, Builder.Title, Builder.Locale, Builder.TimeZone,
      h, PropCall.fieldName]

theorem applyPropCall_same (b : Builder) (c : PropCall) :
    (b.applyPropCall c).requests = b.requests ∧ (b.applyPropCall c).errs = b.errs := by
  obtain ⟨h1, h2, -, -⟩ := ensureProps_fields b
  cases c <;>
    simp [Builder.applyPropCall, Builder.Title, Builder.Locale, Builder.TimeZone,
      h1, h2]

theorem lastTitle_cons (p : SpreadsheetProperties) (c : PropCall) (cs : List PropCall) :
    lastTitle p.title (c :: cs) = lastTitle (setField p c).title cs := by
  cases c <;> rfl

theorem lastLocale_cons (p : SpreadsheetProperties) (c : PropCall) (cs : List PropCall) :
    lastLocale p.locale (c :: cs) = lastLocale (setField p c).locale cs := by
  cases c <;> rfl

theorem lastTimeZone_cons (p : SpreadsheetProperties) (c : PropCall) (cs : List PropCall) :
    lastTimeZone p.timeZone (c :: cs) = lastTimeZone (setField p c).timeZone cs := by
  cases c <;> rfl

theorem applyPropCalls_same (cs : List PropCall) (b : Builder) :
    (b.applyPropCalls cs).requests = b.requests ∧
      (b.applyPropCalls cs).errs = b.errs := by
  induction cs generalizing b with
  | nil => exact ⟨rfl, rfl⟩
  | cons c cs ih =>
      obtain ⟨h1, h2⟩ := applyPropCall_same b c
      obtain ⟨h3, h4⟩ := ih (b.applyPropCall c)
      exact ⟨by rw [Builder.applyPropCalls, h3, h1],
        by rw [Builder.applyPropCalls, h4, h2]⟩

theorem applyPropCalls_propFields (cs : List PropCall) (b : Builder) :
    (b.applyPropCalls cs).propFields = b.propFields ++ cs.map PropCall.fieldName := by
  induction cs generalizing b with
  | nil => simp [Builder.applyPropCalls]
  | cons c cs ih =>
      rw [Builder.applyPropCalls, ih, applyPropCall_propFields]
      simp

theorem applyPropCalls_props (cs : List PropCall) (b : Builder) (h : cs ≠ []) :
    (b.applyPropCalls cs).props = some
      { title := lastTitle (b.props.getD {}).title cs
        locale := lastLocale (b.props.getD {}).locale cs
        timeZone := lastTimeZone (b.props.getD {}).timeZone cs } := by
  induction cs generalizing b with
  | nil => exact absurd rfl h
  | cons c cs ih =>
      rw [Builder.applyPropCalls,
        lastTitle_cons (b.props.getD {}) c cs,
        lastLocale_cons (b.props.getD {}) c cs,
        lastTimeZone_cons (b.props.getD {}) c cs]
      cases hcs : cs with
      | nil =>
          rw [Builder.applyPropCalls, applyPropCall_props b c]
          simp [lastTitle, lastLocale, lastTimeZone]
      | cons d ds =>
          rw [← hcs]
          have := ih (b.applyPropCall c) (by rw [hcs]; simp)
          rw [this, applyPropCall_props b c]
          simp

/-- Claim C4: for a builder with no recorded errors, after at least one
property setter call (any combination, with repeats), finalization returns
exactly one property-update request, placed before every other staged
request, whose properties carry for each field the value of the most recent
setter call and whose field list joins every touched field name. -/
theorem C4_property_consolidation (b : Builder) (cs : List PropCall)
    (herr : b.errs = []) (hcs : cs ≠ [])
    (hnoprop : ∀ r ∈ b.requests, r.isPropertyUpdate = false) :
    ∃ P : SpreadsheetProperties,
      (b.applyPropCalls cs).Requests = Except.ok
        (Request.updateSpreadsheetProperties
          { properties := P
            fields := String.intercalate "," (b.propFields ++ cs.map PropCall.fieldName) }
          :: b.requests)
      ∧ P.title = lastTitle (b.props.getD {}).title cs
      ∧ P.locale = lastLocale (b.props.getD {}).locale cs
      ∧ P.timeZone = lastTimeZone (b.props.getD {}).timeZone cs
      ∧ (∀ c ∈ cs, PropCall.fieldName c ∈ b.propFields ++ cs.map PropCall.fieldName)
      ∧ (Request.updateSpreadsheetProperties
          { properties := P
            fields := String.intercalate "," (b.propFields ++ cs.map PropCall.fieldName) }
          :: b.requests).countP (fun r => r.isPropertyUpdate) = 1 := by
  obtain ⟨hreq, herrs⟩ := applyPropCalls_same cs b
  refine ⟨{ title := lastTitle (b.props.getD {}).title cs
            locale := lastLocale (b.props.getD {}).locale cs
            timeZone := lastTimeZone (b.props.getD {}).timeZone cs },
    ?_, rfl, rfl, rfl, ?_, ?_⟩
  · rw [Builder.Requests, herrs, herr, applyPropCalls_props cs b hcs,
      applyPropCalls_propFields cs b, hreq]
    have hlen : (b.propFields ++ cs.map PropCall.fieldName).length > 0 := by
      have : cs.map PropCall.fieldName ≠ [] := by
        simpa using hcs
      simp only [List.length_append, List.length_map]
      have := List.length_pos.mpr hcs
      omega
    simp [hlen]
    exact fun _ => hcs
  · intro c hc
    exact List.mem_append_right _ (List.mem_map_of_mem PropCall.fieldName hc)
  · rw [List.countP_cons]
    have hz : ∀ l : List Request, (∀ r ∈ l, r.isPropertyUpdate = false) →
        l.countP (fun r => r.isPropertyUpdate) = 0 := by
      intro l
      induction l with
      | nil => intro _; rfl
      | cons r l ih =>
          intro h
          rw [List.countP_cons]
          have h1 := h r (List.mem_cons_self r l)
          have h2 := ih (fun x hx => h x (List.mem_cons_of_mem r hx))
          simp [h1, h2]
    rw [hz b.requests hnoprop]
    simp [Request.isPropertyUpdate]

/-- Witness for C4: setting the title twice and the locale once on a fresh
builder yields one consolidated property-update request carrying the latest
title. -/
theorem C4_property_consolidation_witness :
    (NewBuilder.applyPropCalls
        [PropCall.title "a", PropCall.locale "L", PropCall.title "b"]).Requests =
      Except.ok [Request.updateSpreadsheetProperties
        { properties := { title := "b", locale := "L", timeZone := "" }
          fields := "title,locale,title" }] := by
  obtain ⟨P, hP, ht, hl, hz, -, -⟩ := C4_property_consolidation NewBuilder
    [PropCall.title "a", PropCall.locale "L", PropCall.title "b"]
    rfl (by decide) (by intro r hr; cases hr)
  have : P = { title := "b", locale := "L", timeZone := "" } := by
    cases P
    simp only at ht hl hz
    simp [ht, hl, hz, lastTitle, lastLocale, lastTimeZone, NewBuilder]
  rw [this] at hP
  exact hP

end Haresheet
